import Mathlib

/-!
Verification development for the Plivo voice-bot bridge.

The repository bridges a Plivo telephony audio stream with the OpenAI
realtime endpoint.  Three relay implementations exist in the source:

* `src/app.py` — `handle_openai_messages`: accumulates a transcript between
  `speech_started` / `speech_ended`, pauses the endpoint, runs a synchronous
  Pinecone + Gemini lookup, injects the result as context, resumes, and gates
  the first audio chunk of a response on a `processing_complete` event with a
  5-second timeout.  Modelled below as `handleA` / `runA`.
* `src/main.py` — `receive_from_openai`: a stateless dispatcher that forwards
  audio, answers `search_product_database` tool calls with a
  `conversation.item.create` output followed by `response.create`, and on
  `speech_started` sends `clearAudio` to Plivo then `response.cancel` to
  OpenAI.  Modelled below as `receive_from_openai` / `relayTrace`.
* `src/app/main.py` — adds a per-call registry `call_data` and the teardown
  routine `after_call_hangup`.  Modelled below as `after_call_hangup`.

External capabilities (Gemini embedding, Pinecone query, Gemini summary,
Google calendar, the `phonenumbers` library) are opaque to the bridge and are
modelled as record-of-functions environments whose calls return
`Except`/`Option` values standing for raised exceptions / parse failures.
Time is discrete: only the capability duration and the 5-second audio-side
timeout advance the clock, which is what the latency claims are about.
-/

/-! ## Model A: `src/app.py` `handle_openai_messages` -/

/-- Commands emitted by `handle_openai_messages` in `src/app.py`.
`pauseInput b` is the `input_audio_buffer.paused` message with flag `b`;
`invokeCap q` marks the synchronous call `process_user_query(q)`;
`injectContext t` is the `assistant.context.update` message carrying the
product information; `readyMsg` is the final system message announcing that
processing is complete; `playAudio p` is the `playAudio` event sent to the
Plivo websocket. -/
inductive ACmd where
  | pauseInput (paused : Bool)
  | invokeCap (query : String)
  | injectContext (text : String)
  | readyMsg
  | playAudio (payload : String)
  deriving DecidableEq, Repr

/-- The capability environment of `src/app.py`: `process_user_query` is the
Pinecone + Gemini pipeline, taking `capDur` seconds and returning
`lookup q` (`none` models a falsy / `None` result). -/
structure AEnv where
  capDur : Nat
  lookup : String → Option String

/-- The mutable session state of `src/app.py`: the module globals
`current_transcript`, `speech_in_progress`, `openai_responding`,
`pending_pinecone_query` and the `ResponseControl` fields `can_respond`,
`processing_complete`, `context_updated`.  `clock` is the elapsed time in
seconds and `gateOpenAt` records when `processing_complete` was last set. -/
structure AState where
  currentTranscript : String
  speechInProgress : Bool
  openaiResponding : Bool
  pendingPineconeQuery : Bool
  canRespond : Bool
  processingComplete : Bool
  contextUpdated : Bool
  clock : Nat
  gateOpenAt : Option Nat
  deriving DecidableEq, Repr

/-- Initial state of a session: empty transcript, all flags down, the
`asyncio.Event` `processing_complete` unset. -/
def AState.init : AState :=
  { currentTranscript := ""
    speechInProgress := false
    openaiResponding := false
    pendingPineconeQuery := false
    canRespond := false
    processingComplete := false
    contextUpdated := false
    clock := 0
    gateOpenAt := none }

/-- Inbound OpenAI events handled by `handle_openai_messages`. -/
inductive AEvent where
  | sessionUpdated
  | speechStarted
  | transcriptDelta (text : String)
  | speechEnded
  | audioDelta (payload : String)
  | responseComplete
  deriving DecidableEq, Repr

/-- Python truthiness of `t.strip()`: the string has a non-whitespace
character (stripping all whitespace leaves something). -/
def hasNonWS (t : String) : Bool :=
  t.data.any (fun c => !c.isWhitespace)

/-- The guard `if transcript_chunk and transcript_chunk.strip():` from
`src/app.py` line 347: keep a chunk only when it is nonempty and contains a
non-whitespace character. -/
def keepDelta (t : String) : Bool :=
  !(t == "") && hasNonWS t

/-- Tail of the `speech_ended` branch of `src/app.py` (lines 393-416): send
the resume message, set `can_respond`, set `processing_complete`, reset the
transcript, and send the ready system message. -/
def finishSpeechEnded (s : AState) (acts : List (Nat × ACmd)) :
    AState × List (Nat × ACmd) :=
  ({ s with canRespond := true
            processingComplete := true
            gateOpenAt := some s.clock
            currentTranscript := "" },
   acts ++ [(s.clock, ACmd.pauseInput false), (s.clock, ACmd.readyMsg)])

/-- One step of `handle_openai_messages` from `src/app.py` (lines 322-453),
dispatching on the inbound event type.  The handler is a single coroutine, so
each event is processed atomically; the only waits are the synchronous
capability call (`env.capDur`) and the 5-second `asyncio.wait_for` on
`processing_complete` before the first audio chunk of a response (which, the
setter being this same coroutine, can only ever fire as a timeout when the
event is not already set). -/
def handleA (env : AEnv) (s : AState) : AEvent → AState × List (Nat × ACmd)
  | .sessionUpdated => (s, [])
  | .speechStarted =>
      ({ s with speechInProgress := true
                currentTranscript := ""
                canRespond := false
                contextUpdated := false
                processingComplete := false }, [])
  | .transcriptDelta t =>
      if keepDelta t then
        ({ s with currentTranscript := s.currentTranscript ++ t }, [])
      else (s, [])
  | .speechEnded =>
      let s1 := { s with speechInProgress := false }
      let acts1 := [(s1.clock, ACmd.pauseInput true)]
      if keepDelta s1.currentTranscript then
        let q := s1.currentTranscript.trim
        let s2 := { s1 with pendingPineconeQuery := true }
        let s3 := { s2 with clock := s2.clock + env.capDur }
        match env.lookup q with
        | some info =>
            finishSpeechEnded
              { s3 with contextUpdated := true, pendingPineconeQuery := false }
              (acts1 ++ [(s2.clock, ACmd.invokeCap q),
                         (s3.clock, ACmd.injectContext info)])
        | none =>
            finishSpeechEnded { s3 with pendingPineconeQuery := false }
              (acts1 ++ [(s2.clock, ACmd.invokeCap q)])
      else
        finishSpeechEnded s1 acts1
  | .audioDelta p =>
      let s1 :=
        if s.openaiResponding || s.processingComplete then s
        else { s with clock := s.clock + 5 }
      ({ s1 with openaiResponding := true }, [(s1.clock, ACmd.playAudio p)])
  | .responseComplete =>
      ({ s with openaiResponding := false, canRespond := false }, [])

/-- Run `handle_openai_messages` over a list of inbound events, concatenating
the emitted commands in order. -/
def runA (env : AEnv) : AState → List AEvent → AState × List (Nat × ACmd)
  | s, [] => (s, [])
  | s, e :: rest =>
      let p := handleA env s e
      let p' := runA env p.1 rest
      (p'.1, p.2 ++ p'.2)

/-- The `turnState` abstraction of the spec read off the flags of the code:
speech in progress is `CallerSpeaking`, a pending Pinecone query is
`Resolving`, an in-flight assistant response is `AssistantResponding`,
otherwise `Idle`. -/
inductive TurnState where
  | Idle
  | CallerSpeaking
  | Resolving
  | AssistantResponding
  deriving DecidableEq, Repr

/-- Derive the spec-level turn state from the flags of the code. -/
def AState.turnState (s : AState) : TurnState :=
  if s.speechInProgress then .CallerSpeaking
  else if s.pendingPineconeQuery then .Resolving
  else if s.openaiResponding then .AssistantResponding
  else .Idle

/-- The `responseGate` of the spec: `Open` exactly when `can_respond` is set
(`src/app.py` sets it at the end of `speech_ended` handling and clears it on
`speech_started` and `response.complete`). -/
def AState.gateOpen (s : AState) : Bool :=
  s.canRespond

/-- Ordered concatenation of a list of strings (the claimed transcript
accumulation). -/
def concatAll : List String → String
  | [] => ""
  | t :: ts => t ++ concatAll ts

/-- Number of `injectContext` commands in an emitted trace. -/
def countInjects (acts : List (Nat × ACmd)) : Nat :=
  (acts.filter (fun a =>
    match a.2 with
    | ACmd.injectContext _ => true
    | _ => false)).length

/-- Timestamp of the first forwarded audio chunk in an emitted trace. -/
def firstPlayTime (acts : List (Nat × ACmd)) : Option Nat :=
  (acts.find? (fun a =>
    match a.2 with
    | ACmd.playAudio _ => true
    | _ => false)).map (fun a => a.1)

/-- A capability environment whose lookup never produces context
(`process_user_query` returning `None`), completing instantly. -/
def envNone : AEnv :=
  { capDur := 0, lookup := fun _ => none }

/-! ## Lemmas about Model A -/

/-- String concatenation is associative (via the underlying character lists). -/
theorem string_append_assoc (a b c : String) : a ++ b ++ c = a ++ (b ++ c) := by
  apply String.ext
  simp [String.data_append, List.append_assoc]

/-- Left identity for string concatenation. -/
theorem string_empty_append (a : String) : "" ++ a = a := by
  apply String.ext
  simp [String.data_append]

/-- Processing a run of transcript-delta events appends exactly the chunks
that pass the `keepDelta` guard, in order. -/
theorem runA_deltas (env : AEnv) (s : AState) (ds : List String) :
    ((runA env s (ds.map AEvent.transcriptDelta)).1).currentTranscript
      = s.currentTranscript ++ concatAll (ds.filter keepDelta) := by
  induction ds generalizing s with
  | nil => simp [runA, concatAll]
  | cons t ts ih =>
      by_cases h : keepDelta t
      · simp [runA, handleA, h, ih, concatAll, string_append_assoc]
      · simp [runA, handleA, h, ih, concatAll]

/-- C1 (amended): between a `speech_started` event and the next
`speech_ended`, the transcript accumulated by `handle_openai_messages`
equals the ordered concatenation of the text fields of exactly those
transcript deltas that are nonempty and contain a non-whitespace character;
the buffer is reset at the `speech_started` transition.  Deltas consisting
only of whitespace are dropped by the guard on line 347 of `src/app.py`. -/
theorem c1_transcript_concat_filtered (env : AEnv) (s : AState) (ds : List String) :
    ((runA env s (AEvent.speechStarted :: ds.map AEvent.transcriptDelta)).1).currentTranscript
      = concatAll (ds.filter keepDelta) := by
  simp [runA, handleA, runA_deltas, string_empty_append]

/-- C1 (counterexample to the claim as stated): with deltas
`"what"`, `" "`, `"is"` the accumulated transcript is `"whatis"`, not the
ordered concatenation `"what is"`, because the whitespace-only delta is
dropped. -/
theorem c1_counterexample :
    ((runA envNone AState.init
        [AEvent.speechStarted, AEvent.transcriptDelta "what",
         AEvent.transcriptDelta " ", AEvent.transcriptDelta "is"]).1).currentTranscript
      = "whatis"
    ∧ concatAll ["what", " ", "is"] = "what is"
    ∧ ((runA envNone AState.init
        [AEvent.speechStarted, AEvent.transcriptDelta "what",
         AEvent.transcriptDelta " ", AEvent.transcriptDelta "is"]).1).currentTranscript
      ≠ concatAll ["what", " ", "is"] := by
  refine ⟨by decide, by decide, by decide⟩

/-- A capability environment whose lookup takes `d` seconds and always
returns the context string `r`. -/
def envSlow (d : Nat) (r : String) : AEnv :=
  { capDur := d, lookup := fun _ => some r }

/-- The scenario of the claim: a caller utterance, speech end, then the
first assistant audio chunk. -/
def c3Events (p : String) : List AEvent :=
  [AEvent.speechStarted, AEvent.transcriptDelta "what is the price",
   AEvent.speechEnded, AEvent.audioDelta p]

/-- C3 (counterexample to the claim as stated): a capability invocation
taking 10 seconds against the 5-second audio-side timeout yields ONE
`InjectContext` send, and the response gate (`processing_complete`) opens at
10 seconds, with the first audio chunk forwarded at 10 seconds — not zero
injections with the gate opening at about 5 seconds. -/
theorem c3_counterexample :
    countInjects (runA (envSlow 10 "$9.86") AState.init (c3Events "a")).2 = 1
    ∧ ((runA (envSlow 10 "$9.86") AState.init (c3Events "a")).1).gateOpenAt = some 10
    ∧ firstPlayTime (runA (envSlow 10 "$9.86") AState.init (c3Events "a")).2 = some 10
    ∧ countInjects (runA (envSlow 10 "$9.86") AState.init (c3Events "a")).2 ≠ 0 := by
  refine ⟨by decide, by decide, by decide, by decide⟩

/-- C3 (amended): `src/app.py` imposes no deadline on the capability
invocation itself — the `speech_ended` branch awaits `process_user_query`
to completion.  For any duration `d`, the invocation injects its context
exactly once, the gate (`processing_complete`) opens at time `d`, and the
first audio chunk of that turn is forwarded at time `d`.  The 5-second
timeout exists only on the audio side: an audio delta arriving while
`processing_complete` is unset is forwarded after exactly 5 seconds
(without any context injection). -/
theorem c3_no_deadline_on_capability (d : Nat) (r p : String) :
    countInjects (runA (envSlow d r) AState.init (c3Events p)).2 = 1
    ∧ ((runA (envSlow d r) AState.init (c3Events p)).1).gateOpenAt = some d
    ∧ firstPlayTime (runA (envSlow d r) AState.init (c3Events p)).2 = some d
    ∧ firstPlayTime (runA (envSlow d r) AState.init
        [AEvent.speechStarted, AEvent.audioDelta p]).2 = some 5
    ∧ countInjects (runA (envSlow d r) AState.init
        [AEvent.speechStarted, AEvent.audioDelta p]).2 = 0 := by
  refine ⟨?_, ?_, ?_, ?_, ?_⟩ <;>
    simp [runA, handleA, finishSpeechEnded, envSlow, c3Events, countInjects,
          firstPlayTime, keepDelta, hasNonWS, AState.init]

/-- Invariant of the `src/app.py` session state between events: no Pinecone
query is pending between events (it is transient within `speech_ended`
handling), `can_respond` is only ever set while no speech is in progress,
and while speech is in progress both `can_respond` and `processing_complete`
are down. -/
def AInv (s : AState) : Prop :=
  s.pendingPineconeQuery = false
  ∧ (s.canRespond = true → s.speechInProgress = false)
  ∧ (s.speechInProgress = true → s.canRespond = false ∧ s.processingComplete = false)

/-- The initial session state satisfies the invariant. -/
theorem AInv_init : AInv AState.init := by
  refine ⟨rfl, ?_, ?_⟩ <;> intro h <;> simp [AState.init] at h

/-- Every event handler of `handle_openai_messages` preserves the invariant. -/
theorem AInv_step (env : AEnv) (s : AState) (e : AEvent) (h : AInv s) :
    AInv (handleA env s e).1 := by
  obtain ⟨h1, h2, h3⟩ := h
  cases e with
  | sessionUpdated => exact ⟨h1, h2, h3⟩
  | speechStarted => simp [handleA, AInv, h1]
  | transcriptDelta t =>
      by_cases hk : keepDelta t <;> simp [handleA, hk, AInv] <;> exact ⟨h1, h2, h3⟩
  | speechEnded =>
      by_cases hk : keepDelta s.currentTranscript
      · cases hl : env.lookup s.currentTranscript.trim <;>
          simp [handleA, hk, hl, finishSpeechEnded, AInv]
      · simp [handleA, hk, finishSpeechEnded, AInv, h1]
  | audioDelta p =>
      by_cases hw : s.openaiResponding || s.processingComplete <;>
        simp [handleA, hw, AInv] <;> exact ⟨h1, h2, h3⟩
  | responseComplete =>
      refine ⟨h1, ?_, ?_⟩
      · intro hc; simp [handleA] at hc
      · intro hs
        simp [handleA] at hs ⊢
        exact (h3 hs).2

/-- The invariant holds in every state reachable from the initial state. -/
theorem AInv_run (env : AEnv) (evs : List AEvent) :
    AInv (runA env AState.init evs).1 := by
  suffices h : ∀ s, AInv s → ∀ evs, AInv (runA env s evs).1 from
    h AState.init AInv_init evs
  intro s hs evs
  induction evs generalizing s with
  | nil => exact hs
  | cons e rest ih => simpa [runA] using ih (handleA env s e).1 (AInv_step env s e hs)

/-- C4 (amended): in every reachable session state, if the response gate
(`can_respond`) is Open then the turn state is `Idle` or
`AssistantResponding` — the gate is Blocked throughout `CallerSpeaking` and
`Resolving`, and while the caller is speaking both `can_respond` and
`processing_complete` are down.  The converse of the claimed equivalence is
false: the gate is also Blocked in `Idle` states (initially and after each
`response.complete`), reopening only when resolution completes. -/
theorem c4_gate_blocked_while_speaking (env : AEnv) (evs : List AEvent) :
    (((runA env AState.init evs).1).gateOpen = true →
        ((runA env AState.init evs).1).turnState = TurnState.Idle
        ∨ ((runA env AState.init evs).1).turnState = TurnState.AssistantResponding)
    ∧ (((runA env AState.init evs).1).turnState = TurnState.CallerSpeaking →
        ((runA env AState.init evs).1).gateOpen = false
        ∧ ((runA env AState.init evs).1).processingComplete = false) := by
  obtain ⟨h1, h2, h3⟩ := AInv_run env evs
  constructor
  · intro hg
    have hs : (runA env AState.init evs).1.speechInProgress = false :=
      h2 (by simpa [AState.gateOpen] using hg)
    by_cases ho : (runA env AState.init evs).1.openaiResponding <;>
      simp [AState.turnState, hs, h1, ho]
  · intro ht
    have hs : (runA env AState.init evs).1.speechInProgress = true := by
      by_contra hns
      simp only [Bool.not_eq_true] at hns
      by_cases ho : (runA env AState.init evs).1.openaiResponding <;>
        simp [AState.turnState, hns, h1, ho] at ht
    exact ⟨by simpa [AState.gateOpen] using (h3 hs).1, (h3 hs).2⟩

/-- C4 (witness): a concrete reachable state with the gate Open, where the
main theorem places the turn state in Idle or AssistantResponding. -/
theorem c4_gate_blocked_while_speaking_witness :
    ((runA envNone AState.init [AEvent.speechStarted, AEvent.speechEnded]).1).turnState
        = TurnState.Idle
    ∨ ((runA envNone AState.init [AEvent.speechStarted, AEvent.speechEnded]).1).turnState
        = TurnState.AssistantResponding :=
  (c4_gate_blocked_while_speaking envNone [AEvent.speechStarted, AEvent.speechEnded]).1
    (by decide)

/-- C4 (counterexample to the claim as stated): after a full turn
(speech start, speech end, assistant audio, response complete) the session
is `Idle` but the response gate is Blocked — `response.complete` clears
`can_respond` (`src/app.py` lines 443-448), and the gate is likewise Blocked
in the initial `Idle` state, so the gate is NOT Open in every
`Idle` state. -/
theorem c4_counterexample :
    ((runA envNone AState.init
        [AEvent.speechStarted, AEvent.speechEnded, AEvent.audioDelta "p",
         AEvent.responseComplete]).1).turnState = TurnState.Idle
    ∧ ((runA envNone AState.init
        [AEvent.speechStarted, AEvent.speechEnded, AEvent.audioDelta "p",
         AEvent.responseComplete]).1).gateOpen = false
    ∧ (AState.init.turnState = TurnState.Idle ∧ AState.init.gateOpen = false) := by
  refine ⟨by decide, by decide, by decide, by decide⟩

/-- C5 (confirmed): in every turn that reaches speech end, the commands
emitted by the `speech_ended` branch of `handle_openai_messages` are, in
order: the pause command first, then (when the transcript is non-blank) the
capability invocation, then (when the invocation returned context) the
context injection, then the resume command, then the ready message — never
in any other relative order. -/
theorem c5_pause_invoke_inject_resume_order (env : AEnv) (s : AState) :
    ∃ mid,
      ((handleA env s AEvent.speechEnded).2).map Prod.snd
        = ACmd.pauseInput true :: mid ++ [ACmd.pauseInput false, ACmd.readyMsg]
      ∧ (mid = []
         ∨ (∃ q, mid = [ACmd.invokeCap q])
         ∨ (∃ q r, mid = [ACmd.invokeCap q, ACmd.injectContext r])) := by
  by_cases hk : keepDelta s.currentTranscript
  · cases hl : env.lookup s.currentTranscript.trim with
    | some info =>
        refine ⟨[ACmd.invokeCap s.currentTranscript.trim,
                 ACmd.injectContext info], ?_, ?_⟩
        · simp [handleA, hk, hl, finishSpeechEnded]
        · exact Or.inr (Or.inr ⟨_, _, rfl⟩)
    | none =>
        refine ⟨[ACmd.invokeCap s.currentTranscript.trim], ?_, ?_⟩
        · simp [handleA, hk, hl, finishSpeechEnded]
        · exact Or.inr (Or.inl ⟨_, rfl⟩)
  · exact ⟨[], by simp [handleA, hk, finishSpeechEnded], Or.inl rfl⟩

/-! ## Model B: `src/main.py` `receive_from_openai` and
`search_product_database` (same pipeline as `src/app/realtime_tools.py`) -/

/-- One Pinecone match: the optional `metadata["text"]` field
(`if "text" in match.get("metadata", {})`). -/
structure PMatch where
  metadataText : Option String
  deriving DecidableEq, Repr

/-- The external services used by `search_product_database`: Gemini embedding
(`genai.embed_content`), the Pinecone index query, and the Gemini summary
(`generate_content`).  An `Except.error` value models the call raising. -/
structure SearchEnv where
  embed : String → Except String Nat
  queryIndex : Nat → Except String (List PMatch)
  summarize : String → String → Except String String

/-- The sentinel failure value returned by the catch-all handler of
`search_product_database`. -/
def searchSentinel : String :=
  "Sorry, I encountered an error searching our product database."

/-- Fallback when the Pinecone query returns no matches. -/
def searchNotFound : String :=
  "I couldn\x27t find information about that product in our database."

/-- Fallback when no match carries usable metadata text. -/
def searchNoUsable : String :=
  "I found some matches but they don\x27t contain usable information."

/-- `search_product_database` from `src/main.py` lines 218-277 (the
`src/app/realtime_tools.py` copy has the same control flow): embed the query,
query the index, fall back on empty matches or unusable metadata, summarize
the joined contexts, and catch any raised exception into the sentinel
string.  The function always returns a string — never an exception. -/
def search_product_database (env : SearchEnv) (query : String) : String :=
  match env.embed query with
  | .error _ => searchSentinel
  | .ok embedding =>
    match env.queryIndex embedding with
    | .error _ => searchSentinel
    | .ok results =>
      if results = [] then searchNotFound
      else
        let contexts := results.filterMap (fun m => m.metadataText)
        if contexts = [] then searchNoUsable
        else
          match env.summarize (String.intercalate "\n---\n" contexts) query with
          | .error _ => searchSentinel
          | .ok summary => summary

/-- Whether the underlying capability pipeline raises on the executed path:
the embedding call, the index query, or the summary call fails. -/
def capRaises (env : SearchEnv) (query : String) : Bool :=
  match env.embed query with
  | .error _ => true
  | .ok embedding =>
    match env.queryIndex embedding with
    | .error _ => true
    | .ok results =>
      if results = [] then false
      else
        let contexts := results.filterMap (fun m => m.metadataText)
        if contexts = [] then false
        else
          match env.summarize (String.intercalate "\n---\n" contexts) query with
          | .error _ => true
          | .ok _ => false

/-- Commands emitted by `receive_from_openai` in `src/main.py`:
`playAudio` to the Plivo websocket, `clearAudio` (with the stream id) to the
Plivo websocket, `response.cancel` to OpenAI, the
`conversation.item.create` function-call output (correlated by the
endpoint-assigned `item_id` and `call_id`, its `output` field being the JSON
object holding `result`), and `response.create`. -/
inductive RCmd where
  | playAudio (payload : String)
  | clearAudio (streamId : String)
  | cancelResponse
  | functionCallOutput (itemId callId result : String)
  | responseCreate
  deriving DecidableEq, Repr

/-- Inbound OpenAI events dispatched by `receive_from_openai` in
`src/main.py`: `functionCallDone name itemId callId query` is
`response.function_call_arguments.done` with `arguments` parsing to the
given query string. -/
inductive REvent where
  | sessionUpdated
  | errorEvent
  | audioDelta (payload : String)
  | functionCallDone (name itemId callId query : String)
  | speechStarted
  deriving DecidableEq, Repr

/-- `receive_from_openai` from `src/main.py` lines 117-171, as the list of
commands it sends for one inbound event.  `sid` is `plivo_ws.stream_id`.
The handler holds no per-call mutable state. -/
def receive_from_openai (sid : String) (env : SearchEnv) :
    REvent → List RCmd
  | .sessionUpdated => []
  | .errorEvent => []
  | .audioDelta p => [RCmd.playAudio p]
  | .functionCallDone name itemId callId query =>
      if name = "search_product_database" then
        [RCmd.functionCallOutput itemId callId (search_product_database env query),
         RCmd.responseCreate]
      else []
  | .speechStarted =>
      [RCmd.clearAudio sid, RCmd.cancelResponse]

/-- The full command trace of the `async for` loop in `handle_message`,
which awaits `receive_from_openai` once per inbound message, in order. -/
def relayTrace (sid : String) (env : SearchEnv) : List REvent → List RCmd
  | [] => []
  | e :: rest => receive_from_openai sid env e ++ relayTrace sid env rest

/-- A capability environment whose calls all raise. -/
def envAllRaise : SearchEnv :=
  { embed := fun _ => .error "boom"
    queryIndex := fun _ => .error "boom"
    summarize := fun _ _ => .error "boom" }

/-- C2 (counterexample to the claim as stated): on `speech_started`,
`src/main.py` (lines 159-169) first sends `clearAudio` to the transport and
only then `response.cancel` to the endpoint — no position of the emitted
trace holds `response.cancel` strictly before `clearAudio`, so the claimed
order (CancelResponse first, then ClearBufferedAudio) does not occur. -/
theorem c2_counterexample :
    relayTrace "s1" envAllRaise [REvent.speechStarted, REvent.audioDelta "a"]
      = [RCmd.clearAudio "s1", RCmd.cancelResponse, RCmd.playAudio "a"]
    ∧ relayTrace "s1" envAllRaise [REvent.speechStarted]
      ≠ [RCmd.cancelResponse, RCmd.clearAudio "s1"]
    ∧ ¬ (∃ i : Fin 2, ∃ j : Fin 2, i < j
          ∧ (relayTrace "s1" envAllRaise [REvent.speechStarted]).get? i.val
              = some RCmd.cancelResponse
          ∧ (relayTrace "s1" envAllRaise [REvent.speechStarted]).get? j.val
              = some (RCmd.clearAudio "s1")) := by
  refine ⟨by decide, by decide, by decide⟩

/-- C2 (amended): whenever a `speech_started` event arrives (in particular
while the assistant is responding), the bridge emits exactly one
`clearAudio` command to the transport and then exactly one
`response.cancel` command to the endpoint — in that order, the reverse of
the claimed one — and both precede every command produced for any
subsequent event, in particular every subsequently forwarded
`AudioDelta`. -/
theorem c2_clear_then_cancel (sid : String) (env : SearchEnv)
    (rest : List REvent) :
    relayTrace sid env (REvent.speechStarted :: rest)
      = RCmd.clearAudio sid :: RCmd.cancelResponse :: relayTrace sid env rest := by
  simp [relayTrace, receive_from_openai]

/-- C6 (confirmed): if any call of the capability pipeline raises (embedding,
index query, or summary generation), `search_product_database` returns the
sentinel failure string, and the bridge still delivers it to the endpoint as
the structured function-call output followed by the continuation command —
no exception escapes the invocation. -/
theorem c6_capability_error_contained (env : SearchEnv)
    (query itemId callId sid : String)
    (h : capRaises env query = true) :
    search_product_database env query = searchSentinel
    ∧ receive_from_openai sid env
        (REvent.functionCallDone "search_product_database" itemId callId query)
      = [RCmd.functionCallOutput itemId callId searchSentinel,
         RCmd.responseCreate] := by
  have hres : search_product_database env query = searchSentinel := by
    unfold capRaises at h
    unfold search_product_database
    cases he : env.embed query with
    | error e => simp
    | ok embedding =>
        rw [he] at h
        dsimp only at h ⊢
        cases hq : env.queryIndex embedding with
        | error e => simp
        | ok results =>
            rw [hq] at h
            dsimp only at h ⊢
            by_cases hm : results = []
            · simp [hm] at h
            · simp only [if_neg hm] at h ⊢
              by_cases hc : results.filterMap (fun m => m.metadataText) = []
              · simp [hc] at h
              · simp only [if_neg hc] at h ⊢
                cases hs : env.summarize
                    (String.intercalate "\n---\n"
                      (results.filterMap (fun m => m.metadataText))) query with
                | error e => simp
                | ok summary => simp [hs] at h
  exact ⟨hres, by simp [receive_from_openai, hres]⟩

/-- C6 (witness): with every external call raising, the invocation yields the
sentinel and the bridge sends it back as structured output. -/
theorem c6_capability_error_contained_witness :
    search_product_database envAllRaise "bolt price" = searchSentinel
    ∧ receive_from_openai "s1" envAllRaise
        (REvent.functionCallDone "search_product_database" "item_1" "call_1"
          "bolt price")
      = [RCmd.functionCallOutput "item_1" "call_1" searchSentinel,
         RCmd.responseCreate] :=
  c6_capability_error_contained envAllRaise "bolt price" "item_1" "call_1" "s1"
    (by decide)

/-- C7 (confirmed): for every `response.function_call_arguments.done` event
naming the registered capability `search_product_database`, the bridge
dispatches it synchronously and sends exactly one function-call output —
correlated by the endpoint-assigned `item_id` and `call_id` of the request —
followed by exactly one `response.create` continuation command, the output
strictly before the continuation. -/
theorem c7_tool_call_roundtrip (sid : String) (env : SearchEnv)
    (name itemId callId query : String)
    (h : name = "search_product_database") :
    receive_from_openai sid env (REvent.functionCallDone name itemId callId query)
      = [RCmd.functionCallOutput itemId callId (search_product_database env query),
         RCmd.responseCreate] := by
  simp [receive_from_openai, h]

/-- C7 (witness): a concrete tool-call request answered by output then
continuation. -/
theorem c7_tool_call_roundtrip_witness :
    receive_from_openai "s1" envAllRaise
        (REvent.functionCallDone "search_product_database" "item_9" "call_9" "q")
      = [RCmd.functionCallOutput "item_9" "call_9"
           (search_product_database envAllRaise "q"),
         RCmd.responseCreate] :=
  c7_tool_call_roundtrip "s1" envAllRaise "search_product_database" "item_9"
    "call_9" "q" rfl

/-! ## Model C: `src/app/number.py` `extract_mobile_numbers` -/

/-- Number types distinguished by the `phonenumbers` library
(`PhoneNumberType`); only `mobile` matters here. -/
inductive NumberKind where
  | mobile
  | fixedLine
  | other
  deriving DecidableEq, Repr

/-- Opaque handle for a parsed `phonenumbers.PhoneNumber` object. -/
abbrev PNum := Nat

/-- The `phonenumbers` library as an opaque capability:
`parse candidate region` returns `none` when `phonenumbers.parse` raises
`NumberParseException`; the remaining fields are `is_valid_number`,
`region_code_for_number`, `number_type` and E.164 formatting. -/
structure PhoneApi where
  parse : String → String → Option PNum
  is_valid_number : PNum → Bool
  region_code_for_number : PNum → String
  number_type : PNum → NumberKind
  formatE164 : PNum → String

/-- The Python slice `raw[i:j]` on the character list of the input. -/
def sliceStr (raw : List Char) (i j : Nat) : String :=
  String.mk ((raw.drop i).take (j - i))

/-- The candidate index pairs of the double loop in
`extract_mobile_numbers`: `i in range(len(raw))` and
`j in range(i+8, min(i+16, len(raw)+1))`. -/
def candidateRanges (len : Nat) : List (Nat × Nat) :=
  (List.range len).flatMap (fun i =>
    (List.range' (i + 8) (min (i + 16) (len + 1) - (i + 8))).map (fun j => (i, j)))

/-- `extract_mobile_numbers` from `src/app/number.py` lines 8-24: every
substring of length 8 to 15 is parsed with the fixed default region `"NP"`;
candidates that parse, are valid, have region code equal to the `country`
argument and are of mobile type are formatted as E.164 and collected;
`list(set(...))` deduplicates the result. -/
def extract_mobile_numbers (api : PhoneApi) (raw : List Char)
    (country : String) : List String :=
  ((candidateRanges raw.length).filterMap (fun ij =>
    match api.parse (sliceStr raw ij.1 ij.2) "NP" with
    | none => none
    | some number =>
        if api.is_valid_number number
            ∧ api.region_code_for_number number = country
            ∧ api.number_type number = NumberKind.mobile
        then some (api.formatE164 number)
        else none)).dedup

/-- Replace the parser of the library by one that ignores its default-region
argument and always parses with `"NP"`. -/
def forceRegionNP (api : PhoneApi) : PhoneApi :=
  { api with parse := fun s _ => api.parse s "NP" }

/-- C9 (confirmed): the returned list has no duplicates; every element is
the E.164 formatting of a number that the library parsed (with default
region `"NP"`) from some candidate substring and judged valid, of the
requested region, and of mobile type; and the result is unchanged if the
parser is forced to always use default region `"NP"` — the `country`
argument never influences parsing. -/
theorem c9_extract_mobile_numbers_sound (api : PhoneApi) (raw : List Char)
    (country : String) :
    (extract_mobile_numbers api raw country).Nodup
    ∧ (∀ x ∈ extract_mobile_numbers api raw country,
        ∃ n, ∃ ij ∈ candidateRanges raw.length,
          api.parse (sliceStr raw ij.1 ij.2) "NP" = some n
          ∧ api.is_valid_number n = true
          ∧ api.region_code_for_number n = country
          ∧ api.number_type n = NumberKind.mobile
          ∧ x = api.formatE164 n)
    ∧ extract_mobile_numbers api raw country
        = extract_mobile_numbers (forceRegionNP api) raw country := by
  refine ⟨List.nodup_dedup _, ?_, rfl⟩
  intro x hx
  rw [extract_mobile_numbers, List.mem_dedup, List.mem_filterMap] at hx
  obtain ⟨ij, hij, hx⟩ := hx
  cases hp : api.parse (sliceStr raw ij.1 ij.2) "NP" with
  | none => rw [hp] at hx; exact absurd hx (by simp)
  | some n =>
      rw [hp] at hx
      dsimp only at hx
      by_cases hcond : api.is_valid_number n = true
          ∧ api.region_code_for_number n = country
          ∧ api.number_type n = NumberKind.mobile
      · rw [if_pos hcond] at hx
        obtain ⟨h1, h2, h3⟩ := hcond
        exact ⟨n, ij, hij, hp, h1, h2, h3, (Option.some_inj.mp hx).symm⟩
      · rw [if_neg hcond] at hx; exact absurd hx (by simp)

/-- A toy instance of the `phonenumbers` capability recognising exactly one
candidate string as a valid Nepali mobile number. -/
def toyPhoneApi : PhoneApi :=
  { parse := fun s _ => if s = "98697309" then some 1 else none
    is_valid_number := fun _ => true
    region_code_for_number := fun _ => "NP"
    number_type := fun _ => NumberKind.mobile
    formatE164 := fun _ => "+97798697309" }

/-- C9 (witness): on a concrete input the extraction returns an element, and
the main theorem produces its parsed, valid, region-matching mobile
pre-image. -/
theorem c9_extract_mobile_numbers_sound_witness :
    ∃ n, ∃ ij ∈ candidateRanges ("98697309".data).length,
      toyPhoneApi.parse (sliceStr ("98697309".data) ij.1 ij.2) "NP" = some n
      ∧ toyPhoneApi.is_valid_number n = true
      ∧ toyPhoneApi.region_code_for_number n = "NP"
      ∧ toyPhoneApi.number_type n = NumberKind.mobile
      ∧ "+97798697309" = toyPhoneApi.formatE164 n :=
  (c9_extract_mobile_numbers_sound toyPhoneApi ("98697309".data) "NP").2.1
    "+97798697309" (by decide)

/-! ## Model D: `src/app/google_calender.py` `is_slot_available` and
`book_slot_handler` -/

/-- The Google-calendar side of the bridge as an opaque capability, with
time measured in minutes (IST).  `build` is `build_service()` (raising
models credential failure); `parseIso` is `datetime.fromisoformat` (`none`
models `ValueError`); `listEvents a b` returns the number of calendar events
overlapping `[a, b)`; `insert` creates the event and returns its
`htmlLink`.  `Except.error` values model raised exceptions. -/
structure CalEnv where
  now : Int
  build : Except String Unit
  parseIso : String → Option Int
  listEvents : Int → Int → Except String Nat
  insert : Int → Int → String → Except String String

/-- Hour of day of a timestamp in minutes. -/
def hourOf (t : Int) : Int :=
  (t / 60) % 24

/-- `is_slot_available` from `src/app/google_calender.py` lines 125-173:
build the service, parse the proposed time (returning `False` on a
`ValueError`), reject times outside business hours (9 to 18) or in the
past, and report the 30-minute slot free exactly when the calendar lists no
overlapping events; any raised exception yields `False`. -/
def is_slot_available (env : CalEnv) (proposed_time_str : String) : Bool :=
  match env.build with
  | .error _ => false
  | .ok _ =>
    match env.parseIso proposed_time_str with
    | none => false
    | some proposed_time =>
      if ¬ (9 ≤ hourOf proposed_time ∧ hourOf proposed_time < 18) then false
      else if proposed_time < env.now then false
      else
        match env.listEvents proposed_time (proposed_time + 30) with
        | .error _ => false
        | .ok n => n = 0

/-- Result dictionary of `book_slot_handler`: either a dictionary with an
`"error"` key, or the success dictionary with the booked time and the
link of the created event. -/
inductive BookOutcome where
  | err (msg : String)
  | booked (time : Int) (link : String)
  deriving DecidableEq, Repr

/-- Whether a booking outcome is the error dictionary. -/
def BookOutcome.isErr : BookOutcome → Bool
  | .err _ => true
  | .booked _ _ => false

/-- Observable result of one `book_slot_handler` call: the returned
dictionary, the arguments of the `events().insert` call when one was made
(start, end, attendee email), and whether the calendar event was actually
created. -/
structure BookResult where
  outcome : BookOutcome
  insertCall : Option (Int × Int × String)
  created : Bool
  deriving DecidableEq, Repr

/-- The email validation of `book_slot_handler`
(`if not email or '@' not in email`): an empty or at-sign-free address is
replaced by the default. -/
def defaultedEmail (email : String) : String :=
  if email = "" ∨ ¬ email.data.contains '@' then "customer@example.com" else email

/-- `book_slot_handler` from `src/app/google_calender.py` lines 175-236:
build the service, parse the proposed time (error dictionary on
`ValueError`), default the email, reject past times, times outside business
hours (9 to 18) and unavailable slots with error dictionaries, then insert
the 30-minute event; a raised exception anywhere is caught into an error
dictionary. -/
def book_slot_handler (env : CalEnv) (start_time_str : String)
    (email : String) : BookResult :=
  match env.build with
  | .error e =>
      { outcome := .err ("Calendar service error: " ++ e)
        insertCall := none, created := false }
  | .ok _ =>
    match env.parseIso start_time_str with
    | none =>
        { outcome := .err "Invalid time format. Please use YYYY-MM-DDTHH:MM:SS"
          insertCall := none, created := false }
    | some start_time =>
      let end_time := start_time + 30
      let email := defaultedEmail email
      if start_time < env.now then
        { outcome := .err "Requested time is in the past. Try another slot."
          insertCall := none, created := false }
      else if ¬ (9 ≤ hourOf start_time ∧ hourOf start_time < 18) then
        { outcome := .err
            "Requested time is outside business hours (9 AM to 6 PM). Try another slot."
          insertCall := none, created := false }
      else if ¬ is_slot_available env start_time_str then
        { outcome := .err "Slot is not available. Please choose another time."
          insertCall := none, created := false }
      else
        match env.insert start_time end_time email with
        | .error e =>
            { outcome := .err ("Failed to book appointment: " ++ e)
              insertCall := some (start_time, end_time, email), created := false }
        | .ok link =>
            { outcome := .booked start_time link
              insertCall := some (start_time, end_time, email), created := true }

/-- A calendar environment at exactly 10:00 (minute 600), with a working
service, a parser recognising one time string as minute 600, an empty
calendar, and a succeeding insert. -/
def calEnvBoundary : CalEnv :=
  { now := 600
    build := .ok ()
    parseIso := fun s => if s = "2025-01-01T10:00:00" then some 600 else none
    listEvents := fun _ _ => .ok 0
    insert := fun _ _ _ => .ok "link" }

/-- C10 (counterexample to the claim as stated): a proposed time equal to
the current time is NOT in the future, yet `book_slot_handler` inserts the
event — both past-time checks use strict `<`, so the present instant is
accepted. -/
theorem c10_counterexample :
    (book_slot_handler calEnvBoundary "2025-01-01T10:00:00" "a@b.com").created = true
    ∧ (book_slot_handler calEnvBoundary "2025-01-01T10:00:00" "a@b.com").insertCall
        = some (600, 630, "a@b.com")
    ∧ ¬ calEnvBoundary.now < 600 := by
  refine ⟨by decide, by decide, by decide⟩

/-- C10 (amended): `book_slot_handler` calls the calendar insert only when
the proposed time string parses as an ISO timestamp, is not earlier than
the current time (strict past check, so the present instant is allowed),
starts within business hours (hour 9 inclusive to 18 exclusive), and
`is_slot_available` reports the 30-minute slot free — and the inserted
attendee email is the argument with absent or at-sign-free values replaced
by the default.  An event is created exactly when the success dictionary is
returned; when no insert happens the result is an error dictionary; and a
raising insert also yields an error dictionary, without a created event. -/
theorem c10_booking_guards (env : CalEnv) (s email : String) :
    (∀ a b em, (book_slot_handler env s email).insertCall = some (a, b, em) →
        env.parseIso s = some a
        ∧ env.now ≤ a
        ∧ 9 ≤ hourOf a ∧ hourOf a < 18
        ∧ is_slot_available env s = true
        ∧ b = a + 30
        ∧ em = defaultedEmail email)
    ∧ ((book_slot_handler env s email).created = true ↔
        ∃ t l, (book_slot_handler env s email).outcome = BookOutcome.booked t l)
    ∧ ((book_slot_handler env s email).insertCall = none →
        ∃ m, (book_slot_handler env s email).outcome = BookOutcome.err m)
    ∧ (∀ a b em e, (book_slot_handler env s email).insertCall = some (a, b, em) →
        env.insert a b em = Except.error e →
        (∃ m, (book_slot_handler env s email).outcome = BookOutcome.err m)
        ∧ (book_slot_handler env s email).created = false) := by
  unfold book_slot_handler
  cases hb : env.build with
  | error e => simp
  | ok u =>
    cases hp : env.parseIso s with
    | none => simp
    | some t =>
      dsimp only
      by_cases h1 : t < env.now
      · simp [h1]
      · rw [if_neg h1]
        by_cases h2 : 9 ≤ hourOf t ∧ hourOf t < 18
        · rw [if_neg (not_not_intro h2)]
          by_cases h3 : is_slot_available env s = true
          · rw [if_neg (by simp [h3])]
            cases hi : env.insert t (t + 30) (defaultedEmail email) with
            | error e =>
                refine ⟨?_, by simp, by simp, ?_⟩
                · intro a b em hsome
                  obtain ⟨ha, hbb, hem⟩ :
                      t = a ∧ t + 30 = b ∧ defaultedEmail email = em := by
                    simpa using hsome
                  subst ha; subst hbb; subst hem
                  exact ⟨rfl, Int.not_lt.mp h1, h2.1, h2.2, h3, rfl, rfl⟩
                · intro a b em e2 hsome hins
                  exact ⟨⟨_, rfl⟩, rfl⟩
            | ok link =>
                refine ⟨?_, by simp, by simp, ?_⟩
                · intro a b em hsome
                  obtain ⟨ha, hbb, hem⟩ :
                      t = a ∧ t + 30 = b ∧ defaultedEmail email = em := by
                    simpa using hsome
                  subst ha; subst hbb; subst hem
                  exact ⟨rfl, Int.not_lt.mp h1, h2.1, h2.2, h3, rfl, rfl⟩
                · intro a b em e2 hsome hins
                  obtain ⟨ha, hbb, hem⟩ :
                      t = a ∧ t + 30 = b ∧ defaultedEmail email = em := by
                    simpa using hsome
                  subst ha; subst hbb; subst hem
                  rw [hi] at hins
                  exact absurd hins (by simp)
          · rw [if_pos (by simpa using h3)]
            simp
        · rw [if_pos h2]
          simp

/-- C10 (witness): a concrete insert whose guards the main theorem
discharges. -/
theorem c10_booking_guards_witness :
    calEnvBoundary.parseIso "2025-01-01T10:00:00" = some 600
    ∧ calEnvBoundary.now ≤ 600
    ∧ 9 ≤ hourOf 600 ∧ hourOf 600 < 18
    ∧ is_slot_available calEnvBoundary "2025-01-01T10:00:00" = true
    ∧ (630 : Int) = 600 + 30
    ∧ "a@b.com" = defaultedEmail "a@b.com" :=
  (c10_booking_guards calEnvBoundary "2025-01-01T10:00:00" "a@b.com").1
    600 630 "a@b.com" (by decide)

/-! ## Model E: `src/app/main.py` call registry and `after_call_hangup` -/

/-- One entry of `call_data[uuid]["transcriptions"]`: accumulated text and
the completion flag. -/
structure TransEntry where
  text : String
  complete : Bool
  deriving DecidableEq, Repr

/-- One entry of `call_data[uuid]["function_calls"]`. -/
structure FCall where
  query : String
  result : String
  itemId : String
  deriving DecidableEq, Repr

/-- The per-call record stored in the module-global `call_data`
dictionary. -/
structure CallInfo where
  caller_number : String
  transcriptions : List (String × TransEntry)
  function_calls : List FCall
  deriving DecidableEq, Repr

/-- The `call_data` registry: external call UUID to per-call record. -/
abbrev Registry := List (String × CallInfo)

/-- Dictionary lookup `call_data.get(uuid)`. -/
def lookupReg (reg : Registry) (uuid : String) : Option CallInfo :=
  (reg.find? (fun p => p.1 == uuid)).map (fun p => p.2)

/-- Dictionary removal `del call_data[uuid]`. -/
def eraseReg (reg : Registry) (uuid : String) : Registry :=
  reg.filter (fun p => !(p.1 == uuid))

/-- External operations of `after_call_hangup`: the `phonenumbers` library,
`generate_inquiry_invoice` (a Gemini call that may raise) and
`send_simple_whatsapp` (a Plivo call that may raise). -/
structure HangupEnv where
  phone : PhoneApi
  invoiceGen : String → Except String String
  sendWA : String → String → Except String Unit

/-- Observable actions of one `after_call_hangup` run: the WhatsApp send
attempt (with its recipient and success flag) and a marker that the
post-call processing block for the given call ran to completion. -/
inductive HAct where
  | whatsappSent (recipient : String) (ok : Bool)
  | postProcess (uuid : String)
  deriving DecidableEq, Repr

/-- Insertion into a list sorted by key (the `sorted(transcriptions.items(),
key=lambda x: x[0])` step). -/
def insertByKey (p : String × TransEntry) :
    List (String × TransEntry) → List (String × TransEntry)
  | [] => [p]
  | q :: rest => if p.1 ≤ q.1 then p :: q :: rest else q :: insertByKey p rest

/-- Sort transcription items by item id. -/
def sortByKey : List (String × TransEntry) → List (String × TransEntry)
  | [] => []
  | p :: rest => insertByKey p (sortByKey rest)

/-- The transcript string built by `after_call_hangup`
(`src/app/main.py` lines 352-361): a header, the user transcriptions sorted
by item id, then the recorded database queries with their results (the
`order` fields place all transcriptions before all function calls). -/
def formatTranscript (info : CallInfo) : String :=
  "CALL TRANSCRIPT & DATABASE QUERIES\n=================================\n\n"
    ++ concatAll ((sortByKey info.transcriptions).map
        (fun p => "User: " ++ p.2.text ++ "\n"))
    ++ concatAll (info.function_calls.map
        (fun c => "\nDATABASE QUERY: " ++ c.query ++ "\nRESULT: "
          ++ c.result ++ "\n\n"))

/-- `after_call_hangup` from `src/app/main.py` lines 296-386: return
immediately when the registry has no entry for the call; for a call with no
recorded transcriptions and no function calls, delete the entry and return;
otherwise format the transcript, extract a recipient number (falling back
to the raw caller number), generate the invoice — an exception here
propagates, `Except.error`, with no registry cleanup — then attempt the
WhatsApp send (its exception is caught and only logged) and delete the
registry entry. -/
def after_call_hangup (env : HangupEnv) (reg : Registry) (uuid : String) :
    Except String (Registry × List HAct) :=
  match lookupReg reg uuid with
  | none => .ok (reg, [])
  | some info =>
    if info.transcriptions = [] ∧ info.function_calls = [] then
      .ok (eraseReg reg uuid, [])
    else
      let transcript_text := formatTranscript info
      let valid_numbers :=
        extract_mobile_numbers env.phone info.caller_number.data "NP"
      let recipient :=
        match valid_numbers with
        | [] => info.caller_number
        | n :: _ => n
      match env.invoiceGen transcript_text with
      | .error e => .error e
      | .ok invoice =>
          let sendOk :=
            match env.sendWA recipient invoice with
            | .ok _ => true
            | .error _ => false
          .ok (eraseReg reg uuid,
               [HAct.whatsappSent recipient sendOk, HAct.postProcess uuid])

/-- Two consecutive teardown invocations for the same call (a transport
close racing an endpoint close), threading the registry through and
concatenating the observed actions. -/
def after_call_hangup_twice (env : HangupEnv) (reg : Registry)
    (uuid : String) : Except String (Registry × List HAct) :=
  match after_call_hangup env reg uuid with
  | .error e => .error e
  | .ok (r1, a1) =>
    match after_call_hangup env r1 uuid with
    | .error e => .error e
    | .ok (r2, a2) => .ok (r2, a1 ++ a2)

/-- Number of completed post-call processing blocks in an action list. -/
def countPostProcess (acts : List HAct) : Nat :=
  (acts.filter (fun a =>
    match a with
    | HAct.postProcess _ => true
    | _ => false)).length

/-- The Python registry after one teardown call: unchanged when the call
raised (the `del` at the end of `after_call_hangup` never ran). -/
def regAfter (env : HangupEnv) (reg : Registry) (uuid : String) : Registry :=
  match after_call_hangup env reg uuid with
  | .ok p => p.1
  | .error _ => reg

/-- Whether a teardown invocation raised. -/
def isErrorResult : Except String (Registry × List HAct) → Bool
  | .error _ => true
  | .ok _ => false

/-- After deleting the entry of a call, the registry lookup for it fails. -/
theorem lookupReg_eraseReg (reg : Registry) (uuid : String) :
    lookupReg (eraseReg reg uuid) uuid = none := by
  induction reg with
  | nil => rfl
  | cons p rest ih =>
      by_cases h : p.1 = uuid
      · simp only [eraseReg, lookupReg, List.filter_cons, h] at ih ⊢
        simp_all [eraseReg, lookupReg]
      · simp only [eraseReg, lookupReg, List.filter_cons, List.find?, h] at ih ⊢
        simp_all [eraseReg, lookupReg]

/-- A call record with one transcription and no function calls. -/
def hangupInfo : CallInfo :=
  { caller_number := "unknown"
    transcriptions := [("item_1", { text := "hello", complete := true })]
    function_calls := [] }

/-- A registry holding exactly the call `"c1"`. -/
def hangupRegistry : Registry :=
  [("c1", hangupInfo)]

/-- A `phonenumbers` capability that never parses a candidate. -/
def noParsePhoneApi : PhoneApi :=
  { parse := fun _ _ => none
    is_valid_number := fun _ => false
    region_code_for_number := fun _ => ""
    number_type := fun _ => NumberKind.other
    formatE164 := fun _ => "" }

/-- A teardown environment whose invoice generation raises. -/
def envInvoiceRaises : HangupEnv :=
  { phone := noParsePhoneApi
    invoiceGen := fun _ => .error "gemini unavailable"
    sendWA := fun _ _ => .ok () }

/-- A teardown environment whose external calls all succeed. -/
def envInvoiceOk : HangupEnv :=
  { phone := noParsePhoneApi
    invoiceGen := fun _ => .ok "INVOICE"
    sendWA := fun _ _ => .ok () }

/-- C8 (counterexample to the claim as stated): when
`generate_inquiry_invoice` raises (it is called outside any try block), the
exception propagates out of `after_call_hangup` and the registry entry is
NOT removed — removal is not guaranteed on every error path. -/
theorem c8_counterexample :
    isErrorResult (after_call_hangup envInvoiceRaises hangupRegistry "c1") = true
    ∧ regAfter envInvoiceRaises hangupRegistry "c1" = hangupRegistry
    ∧ lookupReg (regAfter envInvoiceRaises hangupRegistry "c1") "c1"
        = some hangupInfo := by
  refine ⟨by decide, by decide, by decide⟩

/-- C8 (amended): provided the invoice-generation step does not raise,
teardown is idempotent for a call with recorded data: invoking
`after_call_hangup` twice performs the post-call processing exactly once,
releases the registry entry, and the second invocation returns without
error (it finds no entry and returns immediately) — including when the
WhatsApp delivery fails, whose exception is caught.  An exception raised by
invoice generation, however, propagates and leaves the entry in place. -/
theorem c8_teardown_idempotent_when_invoice_ok (env : HangupEnv)
    (reg : Registry) (uuid : String) (info : CallInfo) (inv : String)
    (hlook : lookupReg reg uuid = some info)
    (hdata : ¬ (info.transcriptions = [] ∧ info.function_calls = []))
    (hinv : env.invoiceGen (formatTranscript info) = Except.ok inv) :
    ∃ acts,
      after_call_hangup_twice env reg uuid = Except.ok (eraseReg reg uuid, acts)
      ∧ countPostProcess acts = 1
      ∧ lookupReg (eraseReg reg uuid) uuid = none := by
  unfold after_call_hangup_twice after_call_hangup
  rw [hlook]
  dsimp only
  rw [if_neg hdata, hinv]
  dsimp only
  rw [lookupReg_eraseReg]
  exact ⟨_, rfl, rfl, rfl⟩

/-- C8 (witness): a concrete two-invocation teardown with succeeding invoice
generation: processing happens once and the entry is gone. -/
theorem c8_teardown_idempotent_when_invoice_ok_witness :
    ∃ acts,
      after_call_hangup_twice envInvoiceOk hangupRegistry "c1"
        = Except.ok (eraseReg hangupRegistry "c1", acts)
      ∧ countPostProcess acts = 1
      ∧ lookupReg (eraseReg hangupRegistry "c1") "c1" = none :=
  c8_teardown_idempotent_when_invoice_ok envInvoiceOk hangupRegistry "c1"
    hangupInfo "INVOICE" (by decide) (by decide) rfl
